import Mathlib

/-!
Verification development for the Pomodoro-style interval timer engine of the
Study-Buddy repository (`src/components/Navigation.tsx`, `Timer` component).

The engine is shallowly embedded: React `useState` variables and `useRef`
cells become fields of `EngineState`; each handler / effect body becomes a
state-transformer function.  Reads of state variables inside a handler see
the values of the render that created the handler (React closure semantics),
while `setX` calls build the next state; functional updaters apply to the
already-queued value.  JavaScript truthiness tests on the numeric anchor
(`!phaseStartEpochMsRef.current`) are modelled by `msTruthy`, and
`Math.floor` of a millisecond difference by `Int.fdiv`.

Side effects on the database (session insert, streak read/update) are
modelled as a list of `DbWrite` values computed from a `LogEnv` describing
the collaborator environment (authenticated user, database health, existing
streak row); the `try { ... } catch {}` in `logCompletedFocusSession` makes
the function total, returning no writes on failure.
-/

namespace StudyBuddy

inductive Phase where
  | focus
  | shortBreak
  | longBreak
deriving DecidableEq, Repr

inductive SessionType where
  | study
  | review
  | practice
deriving DecidableEq, Repr

/-- `clamp` from the source: `Math.max(min, Math.min(max, value))`. -/
def clamp (value lo hi : Int) : Int := max lo (min hi value)

/-- JavaScript `x || d` on a number: the default replaces a falsy (zero) value. -/
def orDefault (x d : Int) : Int := if x = 0 then d else x

/-- Configuration supplied by the preferences prop (`preferences` in the source). -/
structure Config where
  isPomodoro : Bool
  focusTimeRaw : Int
  shortBreakRaw : Int
  longBreakRaw : Int
  sessionsUntilLongBreakRaw : Int
  subjects : List String
deriving DecidableEq, Repr

/-- `clamp(preferences.pomodoroSettings.focusTime || 25, 1, 180)` -/
def Config.focusMinutes (c : Config) : Int := clamp (orDefault c.focusTimeRaw 25) 1 180

/-- `clamp(preferences.pomodoroSettings.shortBreak || 5, 1, 60)` -/
def Config.shortBreakMinutes (c : Config) : Int := clamp (orDefault c.shortBreakRaw 5) 1 60

/-- `clamp(preferences.pomodoroSettings.longBreak || 15, 1, 120)` -/
def Config.longBreakMinutes (c : Config) : Int := clamp (orDefault c.longBreakRaw 15) 1 120

/-- `clamp(preferences.pomodoroSettings.sessionsUntilLongBreak || 4, 1, 12)` -/
def Config.sessionsUntilLongBreak (c : Config) : Int :=
  clamp (orDefault c.sessionsUntilLongBreakRaw 4) 1 12

/-- `preferences.subjects && preferences.subjects.length > 0` -/
def Config.hasSubjects (c : Config) : Bool := !c.subjects.isEmpty

/-- `hasSubjects ? preferences.subjects[0].id : ''` -/
def Config.defaultSubjectId (c : Config) : String :=
  match c.subjects with
  | [] => ""
  | x :: _ => x

/-- The engine state: the `useState` variables together with the mutable refs
of the `Timer` component.  Times are epoch milliseconds (`Int`), remaining
time is seconds (`Int`). -/
structure EngineState where
  phase : Phase
  isRunning : Bool
  customMinutes : Int
  selectedSubjectId : String
  sessionTitle : String
  sessionType : SessionType
  completedFocusCount : Nat
  remainingSeconds : Int
  phaseStartEpochMs : Option Int
  focusStartTimeMs : Option Int
deriving DecidableEq, Repr

/-- JavaScript truthiness of the nullable numeric anchor: `null` and `0` are falsy. -/
def msTruthy : Option Int → Bool
  | none => false
  | some x => x != 0

/-- The `phaseDurationSeconds` memo (lines 492-497). -/
def phaseDurationSeconds (cfg : Config) (s : EngineState) : Int :=
  if !cfg.isPomodoro then s.customMinutes * 60
  else match s.phase with
    | Phase.focus => cfg.focusMinutes * 60
    | Phase.shortBreak => cfg.shortBreakMinutes * 60
    | Phase.longBreak => cfg.longBreakMinutes * 60

/-- Fresh component state at mount: the `useState` initial values. -/
def initState (cfg : Config) : EngineState :=
  let base : EngineState :=
    { phase := Phase.focus
      isRunning := false
      customMinutes := 25
      selectedSubjectId := cfg.defaultSubjectId
      sessionTitle := "Focus Session"
      sessionType := SessionType.study
      completedFocusCount := 0
      remainingSeconds := 0
      phaseStartEpochMs := none
      focusStartTimeMs := none }
  { base with remainingSeconds := phaseDurationSeconds cfg base }

/-- `remaining = max(0, phaseDurationSeconds - Math.floor((now - anchor)/1000))`. -/
def remainingAt (dur anchor now : Int) : Int := max 0 (dur - Int.fdiv (now - anchor) 1000)

/-- Environment of the logging collaborators: the authenticated user id,
whether the database calls succeed, and the existing `rewards` row for the
user as `(current, longest, lastStudyDate = yesterday?)`. -/
structure LogEnv where
  userId : Option String
  dbOk : Bool
  streakRow : Option (Int × Int × Bool)
deriving DecidableEq, Repr

/-- Database writes emitted by `logCompletedFocusSession` (timestamps abstracted). -/
inductive DbWrite where
  | sessionInsert (subjectId title : String) (kind : SessionType) (durationMinutes : Int)
  | streakUpdate (current longest : Int)
  | streakInsert
deriving DecidableEq, Repr

/-- `Math.round(a / b)` for positive `b`: floor of `a/b + 1/2`. -/
def jsRound (a b : Int) : Int := Int.fdiv (2 * a + b) (2 * b)

/-- `logCompletedFocusSession` (lines 673-733): returns the list of database
writes performed.  Early return when no subject is configured or no
authenticated user; the surrounding `try/catch` swallows database failure,
so a failing environment yields no writes and no exception. -/
def logCompletedFocusSession (cfg : Config) (env : LogEnv) (s : EngineState)
    (actualFocusMinutes : Int) : List DbWrite :=
  if !cfg.hasSubjects then []
  else match env.userId with
  | none => []
  | some _ =>
    if !env.dbOk then []
    else
      let title := if s.sessionTitle = "" then "Focus Session" else s.sessionTitle
      let insert := DbWrite.sessionInsert s.selectedSubjectId title s.sessionType
        actualFocusMinutes
      match env.streakRow with
      | some (cur, longest, lastWasYesterday) =>
        let newCurrent := if lastWasYesterday then cur + 1 else 1
        let newLongest := max longest newCurrent
        [insert, DbWrite.streakUpdate newCurrent newLongest]
      | none => [insert, DbWrite.streakInsert]

/-- Observable outcome of one engine step: the next state, how many times the
phase-completion path ran, how many times the session-logging collaborator
was invoked, and the database writes it performed. -/
structure StepOut where
  state : EngineState
  completions : Nat
  logCalls : Nat
  writes : List DbWrite
deriving DecidableEq, Repr

/-- A step that performs no completion and no emission. -/
def pureStep (s : EngineState) : StepOut :=
  { state := s, completions := 0, logCalls := 0, writes := [] }

/-- Body of `handlePhaseComplete` (lines 735-758).  `c` holds the values the
handler's closure reads (the render that created it); `q` is the state its
setters update (the already-queued state).  In the ordinary tick path
`c = q`; in the snapshot-restore path `c` is the pre-restore render state.
`setCompletedFocusCount((c) => c + 1)` is a functional updater, hence
applied to `q`; the long-break test reads the closure value `c`. -/
def completeFrom (cfg : Config) (env : LogEnv) (c q : EngineState) : StepOut :=
  if c.phase = Phase.focus then
    let usedMinutes := jsRound (phaseDurationSeconds cfg c) 60
    let writes := logCompletedFocusSession cfg env c usedMinutes
    let shouldLongBreak : Bool := ((c.completedFocusCount : Int) + 1) % cfg.sessionsUntilLongBreak == 0
    let nextPhase := if shouldLongBreak then Phase.longBreak else Phase.shortBreak
    { state :=
        { q with
          completedFocusCount := q.completedFocusCount + 1
          focusStartTimeMs := none
          phase := nextPhase
          isRunning := false
          phaseStartEpochMs := none }
      completions := 1
      logCalls := 1
      writes := writes }
  else
    { state := { q with phase := Phase.focus, isRunning := false, phaseStartEpochMs := none }
      completions := 1
      logCalls := 0
      writes := [] }

/-- The duration-reset effect (lines 575-581): when the timer is not running,
`remainingSeconds` is reset to the (possibly new) full phase duration.  It
re-runs whenever `phaseDurationSeconds` or `isRunning` changes, in particular
right after every phase completion. -/
def durationResetEffect (cfg : Config) (s : EngineState) : EngineState :=
  if s.isRunning then s else { s with remainingSeconds := phaseDurationSeconds cfg s }

/-- A phase transition as observed after the completion handler and the
duration-reset effect it triggers (`isRunning` flips to `false`, so the
effect fires and installs the new phase's full duration). -/
def handlePhaseComplete (cfg : Config) (env : LogEnv) (s : EngineState) : StepOut :=
  let o := completeFrom cfg env s s
  { o with state := durationResetEffect cfg o.state }

/-- `handleStartPause` (lines 645-661).  Toggles `isRunning`; when starting
with a falsy anchor it reconstructs `phaseStartEpochMs` from the shown
remaining time.  Pausing touches only the running flag. -/
def handleStartPause (cfg : Config) (s : EngineState) (now : Int) : EngineState :=
  if !s.isRunning then
    if msTruthy s.phaseStartEpochMs then { s with isRunning := true }
    else
      let assumedStart := now - (phaseDurationSeconds cfg s - s.remainingSeconds) * 1000
      { s with
        isRunning := true
        phaseStartEpochMs := some assumedStart
        focusStartTimeMs :=
          if s.phase = Phase.focus && s.focusStartTimeMs = none then some assumedStart
          else s.focusStartTimeMs }
  else { s with isRunning := false }

/-- `handleReset` (lines 663-671). -/
def handleReset (cfg : Config) (s : EngineState) : EngineState :=
  { s with
    isRunning := false
    remainingSeconds := phaseDurationSeconds cfg s
    phaseStartEpochMs := none
    focusStartTimeMs := if s.phase = Phase.focus then none else s.focusStartTimeMs }

/-- `recomputeRemaining` (lines 528-537): the visibility/focus catch-up
recompute.  Guarded by `isRunning && phaseStartEpochMsRef.current` (a JS
truthiness test); on reaching zero it invokes the completion path at once. -/
def recomputeRemaining (cfg : Config) (env : LogEnv) (s : EngineState) (now : Int) : StepOut :=
  if s.isRunning && msTruthy s.phaseStartEpochMs then
    let a := s.phaseStartEpochMs.getD 0
    let newRemaining := remainingAt (phaseDurationSeconds cfg s) a now
    let s1 := { s with remainingSeconds := newRemaining }
    if newRemaining ≤ 0 then handlePhaseComplete cfg env s1
    else pureStep s1
  else pureStep s

/-- The anchor read of the interval callback, with the JS falsy fallback
`phaseStartEpochMsRef.current || Date.now()`. -/
def tickAnchor (anchor : Option Int) (now : Int) : Int :=
  match anchor with
  | some x => if x != 0 then x else now
  | none => now

/-- One firing of the interval callback (lines 604-618).  The interval only
exists while running.  On reaching zero the callback stores `0` and runs the
completion path. -/
def tickStep (cfg : Config) (env : LogEnv) (s : EngineState) (now : Int) : StepOut :=
  if s.isRunning then
    let newRemaining := remainingAt (phaseDurationSeconds cfg s) (tickAnchor s.phaseStartEpochMs now) now
    if newRemaining ≤ 0 then handlePhaseComplete cfg env { s with remainingSeconds := 0 }
    else pureStep { s with remainingSeconds := newRemaining }
  else pureStep s

/-- The shape persisted to `localStorage` (`TimerPersistedState`, lines 448-460). -/
structure TimerPersistedState where
  phase : Phase
  isRunning : Bool
  customMinutes : Int
  selectedSubjectId : String
  sessionTitle : String
  sessionType : SessionType
  completedFocusCount : Nat
  phaseDurationSeconds : Int
  remainingSeconds : Int
  phaseStartEpochMs : Option Int
  isPomodoro : Bool
deriving DecidableEq, Repr

/-- The full-state snapshot written by `persistState()` with no override
(the persist-on-change effect, lines 772-775). -/
def persistedOf (cfg : Config) (s : EngineState) : TimerPersistedState :=
  { phase := s.phase
    isRunning := s.isRunning
    customMinutes := s.customMinutes
    selectedSubjectId := s.selectedSubjectId
    sessionTitle := s.sessionTitle
    sessionType := s.sessionType
    completedFocusCount := s.completedFocusCount
    phaseDurationSeconds := phaseDurationSeconds cfg s
    remainingSeconds := s.remainingSeconds
    phaseStartEpochMs := s.phaseStartEpochMs
    isPomodoro := cfg.isPomodoro }

/-- The duration used by the restore effect:
`saved.phaseDurationSeconds || phaseDurationSeconds` — the memo read is the
closure value of the render whose effect runs (`s`). -/
def restoreDur (cfg : Config) (s : EngineState) (v : TimerPersistedState) : Int :=
  if v.phaseDurationSeconds != 0 then v.phaseDurationSeconds else phaseDurationSeconds cfg s

/-- The value of the `phaseDurationSeconds` memo after the snapshot's `phase`
and `customMinutes` have been restored. -/
def restoredDuration (cfg : Config) (v : TimerPersistedState) : Int :=
  if !cfg.isPomodoro then v.customMinutes * 60
  else match v.phase with
    | Phase.focus => cfg.focusMinutes * 60
    | Phase.shortBreak => cfg.shortBreakMinutes * 60
    | Phase.longBreak => cfg.longBreakMinutes * 60

/-- The duration-reset effect (lines 575-581) as retriggered right after a
restore that did not resume a running countdown: its dependency array is
`[phaseDurationSeconds, isRunning]`, so it re-runs — overwriting the restored
`remainingSeconds` when the engine is paused — exactly when the restored
duration memo (`restoredDuration cfg v`, the memo of the restored state `s2`)
or the restored running flag differs from the pre-restore render `s`. -/
def postRestoreReset (cfg : Config) (s : EngineState) (v : TimerPersistedState)
    (s2 : EngineState) : EngineState :=
  if restoredDuration cfg v ≠ phaseDurationSeconds cfg s ∨ v.isRunning ≠ s.isRunning
  then durationResetEffect cfg s2
  else s2

/-- The restore effect (lines 540-572), together with the duration-reset
effect (lines 575-581) it retriggers.  `s` is the state of the render whose
effect runs (on cold start, `initState cfg`), `saved` the parsed snapshot
(`none` when the storage slot is absent).  The nested `handlePhaseComplete()`
call reads that render's closure values, i.e. `s`, while its setters update
the queued (restored) state — hence `completeFrom cfg env s s2`.  In the
not-running branch, the duration-reset effect re-fires in the next flush
whenever its dependencies `[phaseDurationSeconds, isRunning]` changed across
the restore, and — the engine being paused — overwrites the just-restored
`remainingSeconds` with the restored phase's full duration. -/
def restoreStep (cfg : Config) (env : LogEnv) (s : EngineState)
    (saved : Option TimerPersistedState) (now : Int) : StepOut :=
  match saved with
  | none => pureStep s
  | some v =>
    let s1 : EngineState :=
      { s with
        phase := v.phase
        isRunning := v.isRunning
        customMinutes := v.customMinutes
        selectedSubjectId :=
          if v.selectedSubjectId = "" then cfg.defaultSubjectId else v.selectedSubjectId
        sessionTitle := if v.sessionTitle = "" then "Focus Session" else v.sessionTitle
        sessionType := v.sessionType
        completedFocusCount := v.completedFocusCount
        phaseStartEpochMs := v.phaseStartEpochMs
        focusStartTimeMs :=
          if v.isRunning && v.phase = Phase.focus && msTruthy v.phaseStartEpochMs
          then v.phaseStartEpochMs
          else s.focusStartTimeMs }
    if v.isRunning && msTruthy v.phaseStartEpochMs then
      let epoch := v.phaseStartEpochMs.getD 0
      let elapsed := Int.fdiv (now - epoch) 1000
      let rem := max 0 (restoreDur cfg s v - elapsed)
      let s2 := { s1 with remainingSeconds := rem }
      if rem ≤ 0 then
        let o := completeFrom cfg env s s2
        { o with state := durationResetEffect cfg o.state }
      else pureStep s2
    else pureStep (postRestoreReset cfg s v { s1 with remainingSeconds := v.remainingSeconds })

/-- States reachable through the engine operations under a fixed
configuration: fresh mount, `startOrPause`, `reset`, interval ticks,
visibility recomputes, phase completion, and restoring a snapshot the
engine itself persisted (via the persist-on-change effect) from a
reachable state. -/
inductive Reach (cfg : Config) : EngineState → Prop where
  | init : Reach cfg (initState cfg)
  | startPause {s : EngineState} (now : Int) :
      Reach cfg s → Reach cfg (handleStartPause cfg s now)
  | reset {s : EngineState} :
      Reach cfg s → Reach cfg (handleReset cfg s)
  | tick {s : EngineState} (env : LogEnv) (now : Int) :
      Reach cfg s → Reach cfg (tickStep cfg env s now).state
  | recompute {s : EngineState} (env : LogEnv) (now : Int) :
      Reach cfg s → Reach cfg (recomputeRemaining cfg env s now).state
  | complete {s : EngineState} (env : LogEnv) :
      Reach cfg s → Reach cfg (handlePhaseComplete cfg env s).state
  | restore {s s' : EngineState} (env : LogEnv) (now : Int) :
      Reach cfg s → Reach cfg s' →
      Reach cfg (restoreStep cfg env s (some (persistedOf cfg s')) now).state

/-! Concrete fixtures used by counterexamples and witnesses: the default
pomodoro configuration with one subject, a healthy logging environment, and
a run of the engine that starts a 25-minute focus phase at `t = 100000` ms,
ticks at `t = 1000000` ms (remaining 600 s), pauses there, and resumes at
`t = 1300000` ms. -/

def cfg0 : Config :=
  { isPomodoro := true, focusTimeRaw := 25, shortBreakRaw := 5, longBreakRaw := 15,
    sessionsUntilLongBreakRaw := 4, subjects := ["s1"] }

/-- A variant configuration: the focus duration was changed to 30 minutes. -/
def cfg1 : Config :=
  { isPomodoro := true, focusTimeRaw := 30, shortBreakRaw := 5, longBreakRaw := 15,
    sessionsUntilLongBreakRaw := 4, subjects := ["s1"] }

def env0 : LogEnv := { userId := some "u1", dbOk := true, streakRow := none }

/-- A logging environment whose database calls fail. -/
def envFail : LogEnv := { userId := some "u1", dbOk := false, streakRow := none }

/-- A logging environment with no authenticated user. -/
def envNoUser : LogEnv := { userId := none, dbOk := true, streakRow := none }

def s0 : EngineState := initState cfg0

/-- After pressing start at `t = 100000` ms. -/
def s1 : EngineState := handleStartPause cfg0 s0 100000

/-- After the tick at `t = 1000000` ms (remaining 600 s). -/
def s2 : EngineState := (tickStep cfg0 env0 s1 1000000).state

/-- After pressing pause at `t = 1000000` ms. -/
def s3 : EngineState := handleStartPause cfg0 s2 1000000

/-- After pressing start again (resume) at `t = 1300000` ms. -/
def s4 : EngineState := handleStartPause cfg0 s3 1300000

/-- A focus state three completed focus phases in. -/
def sCount3 : EngineState := { s0 with completedFocusCount := 3 }

/-- The snapshot persisted from the running state `s1`. -/
def v1 : TimerPersistedState := persistedOf cfg0 s1

/-- A paused short-break snapshot with 100 s left (restored duration memo
300 s, differing from the fresh focus memo of 1500 s). -/
def vPaused : TimerPersistedState :=
  { phase := Phase.shortBreak, isRunning := false, customMinutes := 25,
    selectedSubjectId := "s1", sessionTitle := "Focus Session",
    sessionType := SessionType.study, completedFocusCount := 0,
    phaseDurationSeconds := 300, remainingSeconds := 100,
    phaseStartEpochMs := none, isPomodoro := true }

/-! ## Helper lemmas -/

theorem msTruthy_ne_none {a : Option Int} (h : msTruthy a = true) : a ≠ none := by
  cases a <;> simp [msTruthy] at *

theorem completeFrom_state_isRunning (cfg : Config) (env : LogEnv) (c q : EngineState) :
    (completeFrom cfg env c q).state.isRunning = false := by
  unfold completeFrom
  split <;> rfl

theorem completeFrom_state_anchor (cfg : Config) (env : LogEnv) (c q : EngineState) :
    (completeFrom cfg env c q).state.phaseStartEpochMs = none := by
  unfold completeFrom
  split <;> rfl

theorem durationResetEffect_isRunning (cfg : Config) (s : EngineState) :
    (durationResetEffect cfg s).isRunning = s.isRunning := by
  unfold durationResetEffect
  split <;> rfl

theorem durationResetEffect_anchor (cfg : Config) (s : EngineState) :
    (durationResetEffect cfg s).phaseStartEpochMs = s.phaseStartEpochMs := by
  unfold durationResetEffect
  split <;> rfl

theorem handlePhaseComplete_state_isRunning (cfg : Config) (env : LogEnv) (s : EngineState) :
    (handlePhaseComplete cfg env s).state.isRunning = false := by
  unfold handlePhaseComplete
  rw [durationResetEffect_isRunning, completeFrom_state_isRunning]

theorem handlePhaseComplete_state_anchor (cfg : Config) (env : LogEnv) (s : EngineState) :
    (handlePhaseComplete cfg env s).state.phaseStartEpochMs = none := by
  unfold handlePhaseComplete
  rw [durationResetEffect_anchor, completeFrom_state_anchor]

theorem phaseDurationSeconds_update_remaining (cfg : Config) (s : EngineState) (d : Int) :
    phaseDurationSeconds cfg { s with remainingSeconds := d } = phaseDurationSeconds cfg s := rfl

theorem durationResetEffect_remaining (cfg : Config) (s : EngineState)
    (h : s.isRunning = false) :
    (durationResetEffect cfg s).remainingSeconds
      = phaseDurationSeconds cfg (durationResetEffect cfg s) := by
  unfold durationResetEffect
  simp only [h, Bool.false_eq_true, if_false]
  rfl

theorem durationResetEffect_count (cfg : Config) (s : EngineState) :
    (durationResetEffect cfg s).completedFocusCount = s.completedFocusCount := by
  unfold durationResetEffect
  split <;> rfl

theorem durationResetEffect_phase (cfg : Config) (s : EngineState) :
    (durationResetEffect cfg s).phase = s.phase := by
  unfold durationResetEffect
  split <;> rfl

theorem completeFrom_state_count (cfg : Config) (env : LogEnv) (c q : EngineState) :
    (completeFrom cfg env c q).state.completedFocusCount =
      if c.phase = Phase.focus then q.completedFocusCount + 1 else q.completedFocusCount := by
  unfold completeFrom
  split <;> simp_all

theorem handlePhaseComplete_count (cfg : Config) (env : LogEnv) (s : EngineState) :
    (handlePhaseComplete cfg env s).state.completedFocusCount =
      if s.phase = Phase.focus then s.completedFocusCount + 1 else s.completedFocusCount := by
  unfold handlePhaseComplete
  rw [durationResetEffect_count, completeFrom_state_count]

theorem handlePhaseComplete_completions (cfg : Config) (env : LogEnv) (s : EngineState) :
    (handlePhaseComplete cfg env s).completions = 1 := by
  unfold handlePhaseComplete completeFrom
  split <;> rfl

theorem tickStep_state_cases (cfg : Config) (env : LogEnv) (s : EngineState) (now : Int) :
    (tickStep cfg env s now).state.isRunning = false
    ∨ ((tickStep cfg env s now).state.isRunning = s.isRunning
        ∧ (tickStep cfg env s now).state.phaseStartEpochMs = s.phaseStartEpochMs) := by
  unfold tickStep
  dsimp only
  split
  · split
    · exact Or.inl (handlePhaseComplete_state_isRunning cfg env _)
    · exact Or.inr ⟨rfl, rfl⟩
  · exact Or.inr ⟨rfl, rfl⟩

theorem recomputeRemaining_state_cases (cfg : Config) (env : LogEnv) (s : EngineState)
    (now : Int) :
    (recomputeRemaining cfg env s now).state.isRunning = false
    ∨ ((recomputeRemaining cfg env s now).state.isRunning = s.isRunning
        ∧ (recomputeRemaining cfg env s now).state.phaseStartEpochMs = s.phaseStartEpochMs) := by
  unfold recomputeRemaining
  dsimp only
  split
  · split
    · exact Or.inl (handlePhaseComplete_state_isRunning cfg env _)
    · exact Or.inr ⟨rfl, rfl⟩
  · exact Or.inr ⟨rfl, rfl⟩

theorem postRestoreReset_isRunning (cfg : Config) (s : EngineState) (v : TimerPersistedState)
    (s2 : EngineState) : (postRestoreReset cfg s v s2).isRunning = s2.isRunning := by
  unfold postRestoreReset
  split
  · exact durationResetEffect_isRunning cfg s2
  · rfl

theorem postRestoreReset_anchor (cfg : Config) (s : EngineState) (v : TimerPersistedState)
    (s2 : EngineState) :
    (postRestoreReset cfg s v s2).phaseStartEpochMs = s2.phaseStartEpochMs := by
  unfold postRestoreReset
  split
  · exact durationResetEffect_anchor cfg s2
  · rfl

theorem postRestoreReset_unchanged (cfg : Config) (s : EngineState) (v : TimerPersistedState)
    (s2 : EngineState) (h : restoredDuration cfg v = phaseDurationSeconds cfg s)
    (h2 : v.isRunning = s.isRunning) : postRestoreReset cfg s v s2 = s2 := by
  unfold postRestoreReset
  rw [if_neg]
  rintro (hA | hB)
  exacts [hA h, hB h2]

theorem postRestoreReset_changed (cfg : Config) (s : EngineState) (v : TimerPersistedState)
    (s2 : EngineState) (h : restoredDuration cfg v ≠ phaseDurationSeconds cfg s) :
    postRestoreReset cfg s v s2 = durationResetEffect cfg s2 := by
  unfold postRestoreReset
  exact if_pos (Or.inl h)

theorem restoreStep_state_cases (cfg : Config) (env : LogEnv) (s : EngineState)
    (v : TimerPersistedState) (now : Int) :
    (restoreStep cfg env s (some v) now).state.isRunning = false
    ∨ ((restoreStep cfg env s (some v) now).state.isRunning = v.isRunning
        ∧ (restoreStep cfg env s (some v) now).state.phaseStartEpochMs = v.phaseStartEpochMs) := by
  unfold restoreStep
  dsimp only [pureStep]
  split
  · split
    · left
      rw [durationResetEffect_isRunning, completeFrom_state_isRunning]
    · exact Or.inr ⟨rfl, rfl⟩
  · exact Or.inr ⟨postRestoreReset_isRunning cfg s v _, postRestoreReset_anchor cfg s v _⟩

theorem initState_phase (cfg : Config) : (initState cfg).phase = Phase.focus := rfl

theorem recompute_guard_true {s : EngineState} {a : Int} (hrun : s.isRunning = true)
    (ha : s.phaseStartEpochMs = some a) (ha0 : a ≠ 0) :
    (s.isRunning && msTruthy s.phaseStartEpochMs) = true := by
  rw [hrun, ha]
  simpa [msTruthy] using ha0

theorem recompute_pos_eq (cfg : Config) (env : LogEnv) (s : EngineState) (now a : Int)
    (hrun : s.isRunning = true) (ha : s.phaseStartEpochMs = some a) (ha0 : a ≠ 0)
    (hpos : 0 < remainingAt (phaseDurationSeconds cfg s) a now) :
    recomputeRemaining cfg env s now
      = pureStep { s with remainingSeconds := remainingAt (phaseDurationSeconds cfg s) a now
        } := by
  have hg := recompute_guard_true hrun ha ha0
  have hget : s.phaseStartEpochMs.getD 0 = a := by rw [ha]; rfl
  unfold recomputeRemaining
  dsimp only
  rw [hg, if_pos rfl, hget, if_neg (by omega)]

/-! ## Claim theorems -/

/-- C8: for every engine state and every valid configuration, after
`reset()` the timer is stopped, the anchor is cleared, `remainingSeconds`
equals the current phase's full duration, and `phase` and
`completedFocusCount` are unchanged. -/
theorem c8_reset_frame (cfg : Config) (s : EngineState) :
    (handleReset cfg s).isRunning = false
    ∧ (handleReset cfg s).phaseStartEpochMs = none
    ∧ (handleReset cfg s).remainingSeconds = phaseDurationSeconds cfg s
    ∧ (handleReset cfg s).remainingSeconds = phaseDurationSeconds cfg (handleReset cfg s)
    ∧ (handleReset cfg s).phase = s.phase
    ∧ (handleReset cfg s).completedFocusCount = s.completedFocusCount := by
  refine ⟨rfl, rfl, rfl, rfl, rfl, rfl⟩

/-- C5: on a natural completion, a focus phase goes to the long break exactly
when `(completedFocusCount + 1) mod sessionsUntilLongBreak = 0` and to the
short break otherwise; completing either break always returns to focus. -/
theorem c5_break_cadence (cfg : Config) (env : LogEnv) (s : EngineState) :
    (s.phase = Phase.focus →
      (((handlePhaseComplete cfg env s).state.phase = Phase.longBreak)
        ↔ ((s.completedFocusCount : Int) + 1) % cfg.sessionsUntilLongBreak = 0)
      ∧ (((handlePhaseComplete cfg env s).state.phase = Phase.shortBreak)
        ↔ ¬ ((s.completedFocusCount : Int) + 1) % cfg.sessionsUntilLongBreak = 0))
    ∧ (s.phase ≠ Phase.focus → (handlePhaseComplete cfg env s).state.phase = Phase.focus) := by
  constructor
  · intro hf
    by_cases hb : ((s.completedFocusCount : Int) + 1) % cfg.sessionsUntilLongBreak = 0 <;>
      simp [handlePhaseComplete, durationResetEffect, completeFrom, hf, hb]
  · intro hf
    simp [handlePhaseComplete, durationResetEffect, completeFrom, hf]

/-- C6: every natural phase transition forces `isRunning = false` and resets
`remainingSeconds` to the new phase's full duration; `completedFocusCount`
increases by exactly one on focus completion, is unchanged by break
completion, start/pause, reset, and configuration changes, and never
decreases or skips across a tick or a visibility recompute. -/
theorem c6_transition_frame (cfg : Config) (env : LogEnv) (s : EngineState) (now : Int) :
    ((handlePhaseComplete cfg env s).state.isRunning = false)
    ∧ ((handlePhaseComplete cfg env s).state.remainingSeconds
        = phaseDurationSeconds cfg (handlePhaseComplete cfg env s).state)
    ∧ ((handlePhaseComplete cfg env s).state.completedFocusCount
        = if s.phase = Phase.focus then s.completedFocusCount + 1 else s.completedFocusCount)
    ∧ ((handleStartPause cfg s now).completedFocusCount = s.completedFocusCount)
    ∧ ((handleReset cfg s).completedFocusCount = s.completedFocusCount)
    ∧ ((durationResetEffect cfg s).completedFocusCount = s.completedFocusCount)
    ∧ ((tickStep cfg env s now).state.completedFocusCount = s.completedFocusCount
        ∨ (tickStep cfg env s now).state.completedFocusCount = s.completedFocusCount + 1)
    ∧ ((recomputeRemaining cfg env s now).state.completedFocusCount = s.completedFocusCount
        ∨ (recomputeRemaining cfg env s now).state.completedFocusCount
            = s.completedFocusCount + 1) := by
  refine ⟨handlePhaseComplete_state_isRunning cfg env s, ?_, handlePhaseComplete_count cfg env s,
    ?_, rfl, durationResetEffect_count cfg s, ?_, ?_⟩
  · exact durationResetEffect_remaining cfg (completeFrom cfg env s s).state
      (completeFrom_state_isRunning cfg env s s)
  · unfold handleStartPause
    split
    · split <;> rfl
    · rfl
  · by_cases hr : s.isRunning
    · by_cases hrem :
        remainingAt (phaseDurationSeconds cfg s) (tickAnchor s.phaseStartEpochMs now) now ≤ 0
      · simp only [tickStep, hr, if_true, hrem, if_pos]
        rw [handlePhaseComplete_count]
        by_cases hf : s.phase = Phase.focus <;> simp [hf]
      · simp [tickStep, hr, hrem, pureStep]
    · simp [tickStep, hr, pureStep]
  · by_cases hg : s.isRunning && msTruthy s.phaseStartEpochMs
    · by_cases hrem :
        remainingAt (phaseDurationSeconds cfg s) (s.phaseStartEpochMs.getD 0) now ≤ 0
      · simp only [recomputeRemaining, hg, if_true, hrem, if_pos]
        rw [handlePhaseComplete_count]
        by_cases hf : s.phase = Phase.focus <;> simp [hf]
      · simp [recomputeRemaining, hg, hrem, pureStep]
    · simp [recomputeRemaining, hg, pureStep]

/-- C9: the logging/streak emission is fire-and-forget: the post-transition
state does not depend on the logging environment at all (so a failure never
blocks or rolls back the transition), the logger is invoked exactly once
per focus completion (no retry), and a database failure is swallowed,
yielding no writes and no exception. -/
theorem c9_emission_failure_isolated (cfg : Config) (env env' : LogEnv) (s : EngineState) :
    ((handlePhaseComplete cfg env s).state = (handlePhaseComplete cfg env' s).state)
    ∧ ((handlePhaseComplete cfg env s).state.isRunning = false)
    ∧ (s.phase = Phase.focus → (handlePhaseComplete cfg env s).logCalls = 1)
    ∧ (env.dbOk = false → (handlePhaseComplete cfg env s).writes = []) := by
  refine ⟨?_, handlePhaseComplete_state_isRunning cfg env s, ?_, ?_⟩
  · by_cases hf : s.phase = Phase.focus <;>
      simp [handlePhaseComplete, durationResetEffect, completeFrom, hf]
  · intro hf
    simp [handlePhaseComplete, completeFrom, hf]
  · intro hdb
    by_cases hf : s.phase = Phase.focus
    · simp only [handlePhaseComplete, completeFrom, hf, if_pos]
      unfold logCompletedFocusSession
      split
      · rfl
      · split
        · rfl
        · simp [hdb]
    · simp [handlePhaseComplete, completeFrom, hf]

/-- C10: with an empty subject list or no authenticated user, a focus
completion still transitions and increments `completedFocusCount`, the
logging operation is invoked but returns early, and zero database
emissions occur. -/
theorem c10_no_subject_or_user (cfg : Config) (env : LogEnv) (s : EngineState)
    (h : cfg.subjects = [] ∨ env.userId = none) (hf : s.phase = Phase.focus) :
    (handlePhaseComplete cfg env s).writes = []
    ∧ (handlePhaseComplete cfg env s).logCalls = 1
    ∧ (handlePhaseComplete cfg env s).completions = 1
    ∧ (handlePhaseComplete cfg env s).state.completedFocusCount = s.completedFocusCount + 1
    ∧ ((handlePhaseComplete cfg env s).state.phase = Phase.shortBreak
        ∨ (handlePhaseComplete cfg env s).state.phase = Phase.longBreak)
    ∧ (handlePhaseComplete cfg env s).state.isRunning = false := by
  refine ⟨?_, ?_, ?_, ?_, ?_, handlePhaseComplete_state_isRunning cfg env s⟩
  · simp only [handlePhaseComplete, completeFrom, hf, if_pos]
    unfold logCompletedFocusSession
    rcases h with h | h
    · simp [Config.hasSubjects, h, List.isEmpty]
    · simp only [h]
      split
      · rfl
      · rfl
  · simp [handlePhaseComplete, completeFrom, hf]
  · simp [handlePhaseComplete, completeFrom, hf]
  · rw [handlePhaseComplete_count]
    simp [hf]
  · by_cases hb : ((s.completedFocusCount : Int) + 1) % cfg.sessionsUntilLongBreak = 0 <;>
      simp [handlePhaseComplete, durationResetEffect, completeFrom, hf, hb]

/-- C1 (code bug): pausing does not clear the anchor, so resuming finds an
anchor already set and skips the realignment
`phaseStartEpoch = now − (dur − remaining) × 1000`; the wall time spent
paused then counts as elapsed.  Concretely: a 1500 s focus phase anchored at
`t = 100000` ms shows 600 s at `t = 1000000` ms, is paused there, resumed at
`t = 1300000` ms — and the next recompute reads 300 s, not the frozen 600 s. -/
theorem c1_pause_resume_loses_time :
    s2.remainingSeconds = 600
    ∧ s2.phaseStartEpochMs = some 100000
    ∧ s3.isRunning = false ∧ s3.phaseStartEpochMs = some 100000
    ∧ s4.isRunning = true ∧ s4.phaseStartEpochMs = some 100000
    ∧ (recomputeRemaining cfg0 env0 s4 1300000).state.remainingSeconds = 300
    ∧ ((300 : Int) ≠ 600) := by
  decide

/-- C2 counterexample: the reachable state reached by start, tick, pause is
paused yet still carries the anchor, refuting the claimed equivalence
between a non-null `phaseStartEpoch` and `isRunning = true`. -/
theorem c2_pause_keeps_anchor :
    Reach cfg0 s3
    ∧ s3.isRunning = false
    ∧ s3.phaseStartEpochMs = some 100000
    ∧ ¬ ((s3.phaseStartEpochMs ≠ none) ↔ (s3.isRunning = true)) :=
  ⟨Reach.startPause 1000000 (Reach.tick env0 1000000 (Reach.startPause 100000 Reach.init)),
    by decide, by decide, by decide⟩

/-- C2 (amended): only the forward direction of the invariant holds — at
every state reachable through the engine operations, `isRunning = true`
implies `phaseStartEpoch` is non-null; the converse fails after a pause. -/
theorem c2_running_implies_anchor {cfg : Config} {s : EngineState} (h : Reach cfg s) :
    s.isRunning = true → s.phaseStartEpochMs ≠ none := by
  induction h with
  | init =>
      intro hrun
      simp [initState] at hrun
  | @startPause s now h ih =>
      intro hrun
      by_cases hr : s.isRunning
      · simp [handleStartPause, hr] at hrun
      · by_cases ht : msTruthy s.phaseStartEpochMs
        · simpa [handleStartPause, hr, ht] using msTruthy_ne_none ht
        · simp [handleStartPause, hr, ht]
  | @reset s h ih =>
      intro hrun
      simp [handleReset] at hrun
  | @tick s env now h ih =>
      intro hrun
      rcases tickStep_state_cases cfg env s now with hc | ⟨hr1, ha1⟩
      · rw [hc] at hrun
        exact absurd hrun (by simp)
      · rw [hr1] at hrun
        rw [ha1]
        exact ih hrun
  | @recompute s env now h ih =>
      intro hrun
      rcases recomputeRemaining_state_cases cfg env s now with hc | ⟨hr1, ha1⟩
      · rw [hc] at hrun
        exact absurd hrun (by simp)
      · rw [hr1] at hrun
        rw [ha1]
        exact ih hrun
  | @complete s env h ih =>
      intro hrun
      rw [handlePhaseComplete_state_isRunning] at hrun
      exact absurd hrun (by simp)
  | @restore s s' env now h h' ih ih' =>
      intro hrun
      rcases restoreStep_state_cases cfg env s (persistedOf cfg s') now with hc | ⟨hr1, ha1⟩
      · rw [hc] at hrun
        exact absurd hrun (by simp)
      · rw [hr1] at hrun
        rw [ha1]
        exact ih' hrun

/-- Witness for C2 (amended): the running state `s1` has a non-null anchor. -/
theorem c2_running_implies_anchor_witness : s1.phaseStartEpochMs ≠ none :=
  c2_running_implies_anchor (Reach.startPause 100000 Reach.init) (by decide)

/-- C3 counterexample: restoring the paused short-break snapshot `vPaused`
(100 s left) on a cold start does not restore 100 s verbatim — the
duration-reset effect re-fires (the duration memo changed from 1500 s to
300 s with the engine paused) and overwrites it with the full 300 s. -/
theorem c3_paused_restore_not_verbatim :
    vPaused.isRunning = false
    ∧ vPaused.remainingSeconds = 100
    ∧ (restoreStep cfg0 env0 (initState cfg0)
        (some vPaused) 2000000).state.remainingSeconds = 300
    ∧ ((300 : Int) ≠ 100) := by
  decide

/-- C3 (amended): on cold start (pre-restore state `initState cfg`), an
absent snapshot leaves the fresh default state untouched; a snapshot that is
running with a truthy anchor whose implied elapsed time is at least the phase
duration runs the phase-completion path exactly once, with exactly one
invocation of the session-logging collaborator, leaving the engine paused; a
snapshot with `isRunning = false` has its `remainingSeconds` restored
verbatim only when the restored duration memo is unchanged — when the
restored phase or configuration changes the memo, the duration-reset effect
immediately overwrites it with the restored phase's full duration. -/
theorem c3_cold_start_restore (cfg : Config) (env : LogEnv) (v : TimerPersistedState)
    (now : Int) :
    restoreStep cfg env (initState cfg) none now = pureStep (initState cfg)
    ∧ (v.isRunning = true → msTruthy v.phaseStartEpochMs = true →
        restoreDur cfg (initState cfg) v ≤ Int.fdiv (now - v.phaseStartEpochMs.getD 0) 1000 →
        (restoreStep cfg env (initState cfg) (some v) now).completions = 1
        ∧ (restoreStep cfg env (initState cfg) (some v) now).logCalls = 1
        ∧ (restoreStep cfg env (initState cfg) (some v) now).state.isRunning = false)
    ∧ (v.isRunning = false →
        restoredDuration cfg v = phaseDurationSeconds cfg (initState cfg) →
        (restoreStep cfg env (initState cfg) (some v) now).state.remainingSeconds
          = v.remainingSeconds)
    ∧ (v.isRunning = false →
        restoredDuration cfg v ≠ phaseDurationSeconds cfg (initState cfg) →
        (restoreStep cfg env (initState cfg) (some v) now).state.remainingSeconds
          = restoredDuration cfg v) := by
  refine ⟨rfl, ?_, ?_, ?_⟩
  · intro h1 h2 h3
    have hrem : max 0 (restoreDur cfg (initState cfg) v
        - Int.fdiv (now - v.phaseStartEpochMs.getD 0) 1000) ≤ 0 := by
      simp only [max_le_iff, le_refl, true_and]
      omega
    unfold restoreStep
    dsimp only
    rw [h1, h2]
    simp only [Bool.and_self, if_true, hrem, if_pos]
    refine ⟨rfl, ?_, ?_⟩
    · unfold completeFrom
      rw [if_pos (initState_phase cfg)]
    · rw [durationResetEffect_isRunning, completeFrom_state_isRunning]
  · intro h1 hdur
    unfold restoreStep
    dsimp only [pureStep]
    rw [h1]
    simp only [Bool.false_and, Bool.false_eq_true, if_false]
    rw [postRestoreReset_unchanged cfg (initState cfg) v _ hdur h1]
  · intro h1 hdur
    unfold restoreStep
    dsimp only [pureStep]
    rw [h1]
    simp only [Bool.false_and, Bool.false_eq_true, if_false]
    rw [postRestoreReset_changed cfg (initState cfg) v _ hdur]
    rfl

/-- Witness for C3 (amended): restoring the elapsed running snapshot `v1` at
`t = 2000000` ms (elapsed 1900 s ≥ 1500 s) completes once, logs once, and
leaves the engine paused; restoring its paused variant (focus phase, memo
unchanged at 1500 s) restores `remainingSeconds = 1500` verbatim; restoring
the paused short-break snapshot `vPaused` (memo changed to 300 s) yields the
full 300 s instead of the saved 100 s. -/
theorem c3_cold_start_restore_witness :
    ((restoreStep cfg0 env0 (initState cfg0) (some v1) 2000000).completions = 1
      ∧ (restoreStep cfg0 env0 (initState cfg0) (some v1) 2000000).logCalls = 1
      ∧ (restoreStep cfg0 env0 (initState cfg0) (some v1) 2000000).state.isRunning = false)
    ∧ (restoreStep cfg0 env0 (initState cfg0)
        (some { v1 with isRunning := false }) 2000000).state.remainingSeconds = 1500
    ∧ (restoreStep cfg0 env0 (initState cfg0)
        (some vPaused) 2000000).state.remainingSeconds = 300 := by
  refine ⟨?_, ?_, ?_⟩
  · exact (c3_cold_start_restore cfg0 env0 v1 2000000).2.1 (by decide) (by decide) (by decide)
  · have h := (c3_cold_start_restore cfg0 env0 { v1 with isRunning := false } 2000000).2.2.1
      rfl (by decide)
    rw [h]
    decide
  · have h := (c3_cold_start_restore cfg0 env0 vPaused 2000000).2.2.2 rfl (by decide)
    rw [h]
    decide

/-- C4: for a running state with a truthy anchor `a`, the visibility-driven
recompute stores exactly `remainingAt dur a now =
max(0, dur − ⌊(now − a)/1000⌋)` — a pure function of the snapshot fields and
the clock — when that value is positive; when it reaches 0 the completion
path is invoked immediately (in the same recompute, not at a later tick);
and the recompute is idempotent at a fixed `now`. -/
theorem c4_recompute_pure_immediate (cfg : Config) (env : LogEnv) (s : EngineState)
    (now a : Int) (hrun : s.isRunning = true) (ha : s.phaseStartEpochMs = some a)
    (ha0 : a ≠ 0) :
    (0 < remainingAt (phaseDurationSeconds cfg s) a now →
      recomputeRemaining cfg env s now
        = pureStep { s with remainingSeconds := remainingAt (phaseDurationSeconds cfg s) a now })
    ∧ (remainingAt (phaseDurationSeconds cfg s) a now = 0 →
        (recomputeRemaining cfg env s now).completions = 1
        ∧ (recomputeRemaining cfg env s now).state.isRunning = false)
    ∧ (recomputeRemaining cfg env (recomputeRemaining cfg env s now).state now).state
        = (recomputeRemaining cfg env s now).state := by
  have hg : (s.isRunning && msTruthy s.phaseStartEpochMs) = true :=
    recompute_guard_true hrun ha ha0
  have hget : s.phaseStartEpochMs.getD 0 = a := by rw [ha]; rfl
  refine ⟨?_, ?_, ?_⟩
  · intro hpos
    exact recompute_pos_eq cfg env s now a hrun ha ha0 hpos
  · intro hz
    unfold recomputeRemaining
    dsimp only
    rw [hg, if_pos rfl, hget, if_pos (le_of_eq hz)]
    exact ⟨handlePhaseComplete_completions cfg env _,
      handlePhaseComplete_state_isRunning cfg env _⟩
  · by_cases hz : remainingAt (phaseDurationSeconds cfg s) a now ≤ 0
    · have h1 : recomputeRemaining cfg env s now
          = handlePhaseComplete cfg env
              { s with remainingSeconds := remainingAt (phaseDurationSeconds cfg s) a now } := by
        unfold recomputeRemaining
        dsimp only
        rw [hg, if_pos rfl, hget, if_pos hz]
      rw [h1]
      have h2 : (handlePhaseComplete cfg env
          { s with remainingSeconds := remainingAt (phaseDurationSeconds cfg s) a now
          }).state.isRunning = false := handlePhaseComplete_state_isRunning cfg env _
      unfold recomputeRemaining
      dsimp only
      rw [h2]
      rfl
    · have h1 : recomputeRemaining cfg env s now
          = pureStep { s with
              remainingSeconds := remainingAt (phaseDurationSeconds cfg s) a now } := by
        unfold recomputeRemaining
        dsimp only
        rw [hg, if_pos rfl, hget, if_neg hz]
      rw [h1]
      show (recomputeRemaining cfg env
          { s with remainingSeconds := remainingAt (phaseDurationSeconds cfg s) a now }
          now).state
        = ({ s with remainingSeconds := remainingAt (phaseDurationSeconds cfg s) a now }
            : EngineState)
      unfold recomputeRemaining
      dsimp only
      rw [phaseDurationSeconds_update_remaining]
      rw [hg, if_pos rfl, hget, if_neg hz]
      rfl

/-- Witness for C4: recomputing the running state `s1` at `t = 1000000` ms
stores 600 s with no completion. -/
theorem c4_recompute_pure_immediate_witness :
    recomputeRemaining cfg0 env0 s1 1000000 = pureStep { s1 with remainingSeconds := 600 } := by
  have h := (c4_recompute_pure_immediate cfg0 env0 s1 1000000 100000 (by decide) (by decide)
    (by decide)).1 (by decide)
  rw [h]
  have : remainingAt (phaseDurationSeconds cfg0 s1) 100000 1000000 = 600 := by decide
  rw [this]

/-- C7 counterexample: with the timer running (anchor `100000` ms, focus
duration 1500 s), changing the focus duration to 30 minutes makes the very
next recompute read 1200 s — it uses the new duration with the old anchor —
whereas the duration in effect when the phase started would give 900 s.  The
change is therefore not deferred to the next phase boundary. -/
theorem c7_running_change_not_deferred :
    s1.isRunning = true
    ∧ remainingAt (phaseDurationSeconds cfg0 s1) 100000 700000 = 900
    ∧ (recomputeRemaining cfg1 env0 s1 700000).state.remainingSeconds = 1200
    ∧ ((1200 : Int) ≠ 900) := by
  decide

/-- C7 (amended): a configuration change while not running immediately resets
`remainingSeconds` to the new full duration; while running it does not touch
`remainingSeconds` (the reset effect is skipped), but the next recompute uses
the new duration with the unchanged anchor — the change takes effect
immediately in the countdown rather than being deferred to the phase
boundary. -/
theorem c7_config_change_effect (cfg' : Config) (env : LogEnv) (s : EngineState)
    (now a : Int) :
    (s.isRunning = false →
      durationResetEffect cfg' s = { s with remainingSeconds := phaseDurationSeconds cfg' s })
    ∧ (s.isRunning = true → durationResetEffect cfg' s = s)
    ∧ (s.isRunning = true → s.phaseStartEpochMs = some a → a ≠ 0 →
        0 < remainingAt (phaseDurationSeconds cfg' s) a now →
        (recomputeRemaining cfg' env s now).state.remainingSeconds
          = remainingAt (phaseDurationSeconds cfg' s) a now) := by
  refine ⟨?_, ?_, ?_⟩
  · intro h
    unfold durationResetEffect
    rw [h]
    rfl
  · intro h
    unfold durationResetEffect
    rw [h]
    rfl
  · intro hrun ha ha0 hpos
    rw [recompute_pos_eq cfg' env s now a hrun ha ha0 hpos]
    rfl

/-- Witness for C7 (amended): after the focus duration changes from 25 to 30
minutes while `s1` is running, the next recompute at `t = 700000` ms reads
1200 s (the new duration applied to the old anchor). -/
theorem c7_config_change_effect_witness :
    (recomputeRemaining cfg1 env0 s1 700000).state.remainingSeconds = 1200 := by
  have h := (c7_config_change_effect cfg1 env0 s1 700000 100000).2.2 (by decide) (by decide)
    (by decide) (by decide)
  rw [h]
  decide

/-- Witness for C5: with three focus phases completed and
`sessionsUntilLongBreak = 4`, the fourth completion transitions to the long
break. -/
theorem c5_break_cadence_witness :
    (handlePhaseComplete cfg0 env0 sCount3).state.phase = Phase.longBreak := by
  have h := (c5_break_cadence cfg0 env0 sCount3).1 (by decide)
  exact h.1.mpr (by decide)

/-- Witness for C9: with a failing database, a focus completion still invokes
the logger exactly once and produces no writes. -/
theorem c9_emission_failure_isolated_witness :
    (handlePhaseComplete cfg0 envFail s0).logCalls = 1
    ∧ (handlePhaseComplete cfg0 envFail s0).writes = [] := by
  have h := c9_emission_failure_isolated cfg0 envFail env0 s0
  exact ⟨h.2.2.1 (by decide), h.2.2.2 (by decide)⟩

/-- Witness for C10: with no authenticated user, a focus completion performs
no writes yet still increments the completed-focus count. -/
theorem c10_no_subject_or_user_witness :
    (handlePhaseComplete cfg0 envNoUser s0).writes = []
    ∧ (handlePhaseComplete cfg0 envNoUser s0).state.completedFocusCount
        = s0.completedFocusCount + 1 := by
  have h := c10_no_subject_or_user cfg0 envNoUser s0 (Or.inr rfl) (by decide)
  exact ⟨h.1, h.2.2.2.1⟩

end StudyBuddy
